import Mathlib

/-!
Verification of `zdm::basic_lock_wrapper` (src/include/zdm/lock_wrapper.hpp).

The header is a C++20 template library: a value `m_contained` guarded by a
mutex `m_mutex`, with a `with_lock` member whose two overloads are selected
at compile time by the concepts `unary_reference_function` and
`unary_const_reference_function` (lines 77-119).  The concepts read the
callable's single declared parameter type through `detail::function_traits`
(lines 33-62), which is specialized for plain function types, function
pointers, function references, and `const`-qualified member-function
pointers (the call operator of an ordinary lambda).

This development embeds the compile-time machinery as computable data:

* `CppType` / `CallableShape` model the static shape of a callable as the
  concepts see it; `function_traits_args` and `call_operator_traits_args`
  model exactly the four `function_traits` specializations;
* `unary_reference_function` / `unary_const_reference_function` are the two
  concepts, Boolean functions of a shape and the contained type's tag;
* `mutex_traits` is the trait table of lines 143-165;
* `basic_lock_wrapper` is the sequential state of a wrapper (contained
  value plus whether its mutex is currently held) and `with_lock` is the
  dispatcher: it resolves the overload from the shape, acquires the lock
  type the chosen overload names (`unique_lock` for the mutable-reference
  overload at line 218, `shared_lock` for the const-reference overload at
  line 248), runs the operation on `m_contained`, and releases the lock on
  scope exit whether the operation returned or raised (RAII guard).
  An operation taking `T&` is modelled as a state transformer
  `α → α × Except ε β`: it may mutate the value (mutations made before a
  raise persist) and either returns a `β` or raises an `ε`.  An operation
  taking `const T&` is `α → Except ε β`: the type records that it cannot
  mutate;
* a small interleaving semantics (`Phase`, `SysState`, `Step`) models `n`
  threads each running `with_lock([](int &value){ ++value; })` in a loop,
  with the critical section split into its load and store so that mutual
  exclusion, not atomicity of the model, is what rules out lost updates.
-/

namespace zdm

/-- Tag for a C++ object type; `int` is singled out because the unit tests
and the spec's concrete scenarios use `lock_wrapper<int>`. -/
inductive TypeTag where
  | int
  | other (n : Nat)
deriving DecidableEq

/-- A C++ parameter type as compared by the concepts: `T`, `T &`,
`const T &`, or `T &&` over an underlying object type `T`. -/
inductive CppType where
  | value (t : TypeTag)
  | ref (t : TypeTag)
  | constRef (t : TypeTag)
  | rvalueRef (t : TypeTag)
deriving DecidableEq

/-- Which `function_traits` specialization a free callable hits: plain
function type `R(Args...)`, pointer `R (*)(Args...)`, or reference
`R (&)(Args...)` (lines 36-55 of the header). -/
inductive FreeKind where
  | plain
  | pointer
  | reference
deriving DecidableEq

/-- The static shape of a callable argument to `with_lock`, as far as the
classification machinery can see it:

* `freeFunction`: a function, function pointer, or function reference with
  the given declared parameter list;
* `closureConstCallOp`: a class type whose call operator is non-template
  and `const`-qualified (an ordinary non-`mutable` lambda), with the given
  parameter list;
* `closureMutableCallOp`: a class type whose call operator is non-template
  and not `const`-qualified (a `mutable` lambda);
* `genericClosure`: a class type whose call operator is a template (a
  generic lambda, e.g. taking `auto &`): `&F::operator()` does not name a
  single member function, so the address-of expression is ill-formed. -/
inductive CallableShape where
  | freeFunction (k : FreeKind) (params : List CppType)
  | closureConstCallOp (params : List CppType)
  | closureMutableCallOp (params : List CppType)
  | genericClosure
deriving DecidableEq

/-- Argument tuple of `detail::function_traits<AFunction>` (header lines
33-55): specializations exist only for plain function types, function
pointers and function references, so only a free callable yields one. -/
def function_traits_args : CallableShape → Option (List CppType)
  | .freeFunction _ ps => some ps
  | _ => none

/-- Argument tuple of
`detail::function_traits<decltype( &AFunction::operator() )>`: the only
member-pointer specialization is `R ( Class::* )( Args... ) const` (header
lines 57-62), so a `mutable` lambda's non-`const` call operator finds no
specialization, and for a generic lambda `&AFunction::operator()` is
already ill-formed; both make the enclosing requires-clause fail. -/
def call_operator_traits_args : CallableShape → Option (List CppType)
  | .closureConstCallOp ps => some ps
  | _ => none

/-- The concept `zdm::concepts::unary_reference_function<AFunction, T>`
(header lines 77-97): either `function_traits<AFunction>` has exactly one
argument equal to `T &`, or the traits of `&AFunction::operator()` do. -/
def unary_reference_function (F : CallableShape) (T : TypeTag) : Bool :=
  (match function_traits_args F with
    | some [CppType.ref t] => t == T
    | _ => false)
  || (match call_operator_traits_args F with
    | some [CppType.ref t] => t == T
    | _ => false)

/-- The concept `zdm::concepts::unary_const_reference_function<AFunction, T>`
(header lines 100-119): same as `unary_reference_function` with the single
argument compared against `const T &`. -/
def unary_const_reference_function (F : CallableShape) (T : TypeTag) : Bool :=
  (match function_traits_args F with
    | some [CppType.constRef t] => t == T
    | _ => false)
  || (match call_operator_traits_args F with
    | some [CppType.constRef t] => t == T
    | _ => false)

/-- Access mode of a `with_lock` call: the spec's Exclusive (mutable) or
Shared (read-only) classification. -/
inductive LockMode where
  | Exclusive
  | Shared
deriving DecidableEq

/-- Overload resolution for `with_lock`: the overload at header line 213 is
constrained by `unary_reference_function` and takes the `unique_lock`, the
overload at line 241 by `unary_const_reference_function` and takes the
`shared_lock`; a callable satisfying neither makes the call ill-formed
(`none`).  The two concepts are mutually exclusive (a single declared
parameter cannot be both `T &` and `const T &`), so the order of the two
tests below is immaterial. -/
def with_lock_mode (F : CallableShape) (T : TypeTag) : Option LockMode :=
  if unary_reference_function F T then some LockMode.Exclusive
  else if unary_const_reference_function F T then some LockMode.Shared
  else none

/-- The three mutex primitives the trait table covers. -/
inductive MutexKind where
  | std_mutex
  | std_shared_mutex
  | std_recursive_mutex
deriving DecidableEq

/-- A RAII lock type over a mutex kind: `std::scoped_lock<M>`,
`std::unique_lock<M>`, or `std::shared_lock<M>`. -/
inductive LockType where
  | scoped_lock (m : MutexKind)
  | unique_lock (m : MutexKind)
  | shared_lock (m : MutexKind)
deriving DecidableEq

/-- Acquisition semantics of a RAII lock type in the standard library:
`std::scoped_lock` and `std::unique_lock` call `lock()` (exclusive
acquisition, i.e. a write lock), `std::shared_lock` calls `lock_shared()`
(shared acquisition, i.e. a read lock). -/
def LockType.acquisition : LockType → LockMode
  | .scoped_lock _ => LockMode.Exclusive
  | .unique_lock _ => LockMode.Exclusive
  | .shared_lock _ => LockMode.Shared

/-- The two lock-type aliases a `mutex_traits` specialization must define. -/
structure MutexTraits where
  unique_lock : LockType
  shared_lock : LockType
deriving DecidableEq

/-- The trait table of header lines 143-165: `std::mutex` maps both modes
to `std::scoped_lock<std::mutex>`; `std::shared_mutex` maps Exclusive to
`std::unique_lock` and Shared to `std::shared_lock`;
`std::recursive_mutex` maps both modes to
`std::scoped_lock<std::recursive_mutex>`. -/
def mutex_traits : MutexKind → MutexTraits
  | .std_mutex =>
      ⟨LockType.scoped_lock MutexKind.std_mutex,
        LockType.scoped_lock MutexKind.std_mutex⟩
  | .std_shared_mutex =>
      ⟨LockType.unique_lock MutexKind.std_shared_mutex,
        LockType.shared_lock MutexKind.std_shared_mutex⟩
  | .std_recursive_mutex =>
      ⟨LockType.scoped_lock MutexKind.std_recursive_mutex,
        LockType.scoped_lock MutexKind.std_recursive_mutex⟩

/-- The alias `zdm::lock_wrapper<T> = basic_lock_wrapper<T, std::mutex>`
(header line 268): the mutex kind it binds. -/
def lock_wrapper : MutexKind := MutexKind.std_mutex

/-- The alias `zdm::shared_lock_wrapper<T> =
basic_lock_wrapper<T, std::shared_mutex>` (header line 271). -/
def shared_lock_wrapper : MutexKind := MutexKind.std_shared_mutex

/-- The alias `zdm::recursive_lock_wrapper<T> =
basic_lock_wrapper<T, std::recursive_mutex>` (header line 274). -/
def recursive_lock_wrapper : MutexKind := MutexKind.std_recursive_mutex

/-- The pre-built aliases exported by the header, in source order (lines
267-274): exactly these three and no others appear in the file. -/
def prebuilt_aliases : List MutexKind :=
  [lock_wrapper, shared_lock_wrapper, recursive_lock_wrapper]

/-- Sequential state of a `basic_lock_wrapper<AContainedType, AMutexType>`
object: the owned value `m_contained` and whether `m_mutex` is currently
held by the (single) running thread.  A freshly constructed wrapper's
mutex is unlocked. -/
structure basic_lock_wrapper (α : Type) where
  m_mutex : Bool
  m_contained : α
deriving DecidableEq

/-- The converting constructor
`explicit basic_lock_wrapper(AContainedType &&a_contained)` (header lines
173-178): it forwards `a_contained` into `m_contained` unchanged and
default-constructs the mutex (unlocked). -/
def basic_lock_wrapper.construct {α : Type} (a_contained : α) :
    basic_lock_wrapper α :=
  ⟨false, a_contained⟩

/-- The unsynchronized access operators `operator*` and `operator->`
(header lines 180-202): both return (the address of) `m_contained`
directly; neither reads or writes `m_mutex`. -/
def basic_lock_wrapper.deref {α : Type} (w : basic_lock_wrapper α) : α :=
  w.m_contained

/-- Outcome of one (sequential) `with_lock` call:

* `compileError`: neither overload's constraint is satisfied, the program
  does not build, no lock is touched and the value is not accessed;
* `blocked`: an overload was chosen but the mutex is already held, so the
  acquisition in the lock guard's constructor blocks forever;
* `done acquired final result`: the call acquired the RAII lock type
  `acquired`, ran the operation, destroyed the guard (releasing the mutex,
  also during exception unwinding), and completed with wrapper state
  `final` and `result` the operation's returned value or raised error. -/
inductive WithLockOutcome (α β ε : Type) where
  | compileError
  | blocked
  | done (acquired : LockType) (final : basic_lock_wrapper α)
      (result : Except ε β)

/-- The `with_lock` member (header lines 213-260) over a wrapper whose
mutex kind is `m` and whose contained C++ type is tagged `T`.  `F` is the
static shape of the callable; `mutSem` is its meaning when invoked through
`T &` (new value of the referand paired with the returned value or raised
error — a `void` return is `β := Unit`), `constSem` its meaning when
invoked through `const T &`.  A call that resolves to the overload at line
213 constructs `mutex_traits<AMutexType>::unique_lock lock( m_mutex )`
(line 218) and invokes `a_function( m_contained )`; the overload at line
241 constructs the `shared_lock` (line 248) and cannot modify
`m_contained` (it is a `const` member).  In both overloads the guard is a
local object, so the mutex is released when the call returns and, by stack
unwinding, before a raised error reaches the caller. -/
def with_lock {α β ε : Type} (m : MutexKind) (T : TypeTag)
    (F : CallableShape) (mutSem : α → α × Except ε β)
    (constSem : α → Except ε β) (w : basic_lock_wrapper α) :
    WithLockOutcome α β ε :=
  match with_lock_mode F T with
  | none => WithLockOutcome.compileError
  | some LockMode.Exclusive =>
      if w.m_mutex then WithLockOutcome.blocked
      else
        WithLockOutcome.done (mutex_traits m).unique_lock
          ⟨false, (mutSem w.m_contained).1⟩ (mutSem w.m_contained).2
  | some LockMode.Shared =>
      if w.m_mutex then WithLockOutcome.blocked
      else
        WithLockOutcome.done (mutex_traits m).shared_lock
          ⟨false, w.m_contained⟩ (constSem w.m_contained)

/-- Declared parameter list of a callable shape, for stating which shapes
are invalid: `none` for a generic lambda, whose parameter types are not
fixed by the declaration. -/
def declaredParams : CallableShape → Option (List CppType)
  | .freeFunction _ ps => some ps
  | .closureConstCallOp ps => some ps
  | .closureMutableCallOp ps => some ps
  | .genericClosure => none

/-- Whether a callable shape could be invoked with an lvalue of type `T`
(ordinary C++ viability, ignoring the concepts): a parameter `T &`,
`const T &` or by-value `T` binds an lvalue `T`; a generic lambda's
templated call operator accepts any argument. -/
def invocable_with_lvalue (F : CallableShape) (T : TypeTag) : Bool :=
  match F with
  | .genericClosure => true
  | .freeFunction _ ps => ps == [CppType.ref T] || ps == [CppType.constRef T]
      || ps == [CppType.value T]
  | .closureConstCallOp ps => ps == [CppType.ref T]
      || ps == [CppType.constRef T] || ps == [CppType.value T]
  | .closureMutableCallOp ps => ps == [CppType.ref T]
      || ps == [CppType.constRef T] || ps == [CppType.value T]

/-- The two C++ forms of "construct with no arguments". -/
inductive CppInit where
  | defaultInit
  | valueInit
deriving DecidableEq

/-- Contents of `m_contained` after constructing a
`basic_lock_wrapper<int, ...>` with no arguments.  The default constructor
is `basic_lock_wrapper() = default;` (header line 171) and the member
declaration `AContainedType m_contained;` (line 264) carries no
initializer.  Hence value-initialization (`zdm::lock_wrapper<int> w{};`)
zero-initializes the object — the defaulted constructor is not
user-provided — and yields 0, while default-initialization
(`zdm::lock_wrapper<int> w;`) runs the constructor without zeroing, which
default-initializes the `int` member and leaves it indeterminate; `indet`
stands for whatever bits the member happens to hold. -/
def contained_after_noarg_construction (form : CppInit) (indet : Int) :
    Int :=
  match form with
  | .valueInit => 0
  | .defaultInit => indet

/-!
Interleaving semantics for the multi-threaded counter scenario (spec §8,
test "lock_wrapper - test with 4 threads"): `n` threads share one
`zdm::lock_wrapper<int>` and each repeatedly calls
`with_lock([](int &value){ ++value; })`.  One `with_lock` call is the
sequence acquire / load `value` / store `value + 1` / release; the load
and store are separate steps, so that nothing in the model itself makes
the increment atomic — only the mutex (acquisition requires it to be
free) serializes the critical sections.
-/

/-- Control point of a thread inside (or outside) one `with_lock`
increment: `idle` outside any call; `acquired` holding the mutex before
reading; `readDone lval` holding the mutex after loading `lval` from the
shared value; `wroteBack` holding the mutex after storing `lval + 1`. -/
inductive Phase where
  | idle
  | acquired
  | readDone (lval : Nat)
  | wroteBack
deriving DecidableEq

/-- One thread: how many increments it still has to run, and where it is
in the current one. -/
structure ThreadState where
  rem : Nat
  pc : Phase
deriving DecidableEq

/-- Global state: the wrapped counter `value`, which thread (if any)
currently holds the wrapper's `std::mutex`, and every thread's state. -/
structure SysState (n : Nat) where
  value : Nat
  owner : Option (Fin n)
  threads : Fin n → ThreadState

/-- Interleaving step relation.  `acquire` is the constructor of the
`std::scoped_lock` in `with_lock` (blocks unless the mutex is free);
`read` and `write` are the load and store making up `++value` inside the
critical section; `release` is the guard's destructor at the end of the
`with_lock` body, after which the thread moves on to its next iteration. -/
inductive Step {n : Nat} : SysState n → SysState n → Prop where
  | acquire (s : SysState n) (i : Fin n) (hfree : s.owner = none)
      (hpc : (s.threads i).pc = Phase.idle) (hrem : 0 < (s.threads i).rem) :
      Step s ⟨s.value, some i,
        Function.update s.threads i ⟨(s.threads i).rem, Phase.acquired⟩⟩
  | read (s : SysState n) (i : Fin n) (hown : s.owner = some i)
      (hpc : (s.threads i).pc = Phase.acquired) :
      Step s ⟨s.value, s.owner,
        Function.update s.threads i
          ⟨(s.threads i).rem, Phase.readDone s.value⟩⟩
  | write (s : SysState n) (i : Fin n) (lval : Nat)
      (hown : s.owner = some i)
      (hpc : (s.threads i).pc = Phase.readDone lval) :
      Step s ⟨lval + 1, s.owner,
        Function.update s.threads i ⟨(s.threads i).rem, Phase.wroteBack⟩⟩
  | release (s : SysState n) (i : Fin n) (hown : s.owner = some i)
      (hpc : (s.threads i).pc = Phase.wroteBack) :
      Step s ⟨s.value, none,
        Function.update s.threads i ⟨(s.threads i).rem - 1, Phase.idle⟩⟩

/-- Start state: counter at `init` (the test constructs `wrapper( 0 )`),
mutex free, thread `i` with `total i` increments to run. -/
def initState {n : Nat} (init : Nat) (total : Fin n → Nat) : SysState n :=
  ⟨init, none, fun i => ⟨total i, Phase.idle⟩⟩

/-- States reachable by interleaving the threads in any order. -/
def Reachable {n : Nat} (init : Nat) (total : Fin n → Nat)
    (s : SysState n) : Prop :=
  Relation.ReflTransGen Step (initState init total) s

/-- All threads have been joined: each is idle with no work left. -/
def Finished {n : Nat} (s : SysState n) : Prop :=
  ∀ i, (s.threads i).pc = Phase.idle ∧ (s.threads i).rem = 0

/-- Increments a thread at this control point has fully written back
within its current critical section (1 after the store, else 0). -/
def phaseDone : Phase → Nat
  | .wroteBack => 1
  | _ => 0

/-- Number of increments thread `i` has completed: `rem` is decremented at
`release`, so during a critical section the current increment is counted
by `phaseDone` once its store has happened. -/
def doneCount {n : Nat} (total : Fin n → Nat) (th : Fin n → ThreadState)
    (i : Fin n) : Nat :=
  total i - (th i).rem + phaseDone (th i).pc

/-- Inductive invariant of the counter system: the counter equals the
initial value plus all completed increments; no thread owes more
increments than it started with; any thread inside a critical section is
the mutex owner (hence at most one is); a loaded local equals the current
counter (the owner's load cannot be invalidated, since any writer would
also have to own the mutex); and a thread inside a critical section still
has its current increment pending. -/
structure Inv {n : Nat} (init : Nat) (total : Fin n → Nat)
    (s : SysState n) : Prop where
  val_eq : s.value = init + ∑ j, doneCount total s.threads j
  rem_le : ∀ i, (s.threads i).rem ≤ total i
  nonidle_owner : ∀ i, (s.threads i).pc ≠ Phase.idle → s.owner = some i
  read_val : ∀ i lval, (s.threads i).pc = Phase.readDone lval →
    lval = s.value
  nonidle_rem : ∀ i, (s.threads i).pc ≠ Phase.idle → 0 < (s.threads i).rem

/-- Completed run of the single-thread, single-increment demonstration
used to exercise the counter semantics on a concrete schedule. -/
def demoFinal : SysState 1 :=
  ⟨1, none, fun _ => ⟨0, Phase.idle⟩⟩

theorem sum_update_add {n : Nat} (f : Fin n → Nat) (i : Fin n) (b : Nat) :
    (∑ j, Function.update f i b j) + f i = (∑ j, f j) + b := by
  rw [Finset.sum_update_of_mem (Finset.mem_univ i), ← Finset.erase_eq]
  have h2 := Finset.add_sum_erase Finset.univ f (Finset.mem_univ i)
  omega

theorem doneCount_update {n : Nat} (total : Fin n → Nat)
    (th : Fin n → ThreadState) (i : Fin n) (t : ThreadState) :
    doneCount total (Function.update th i t)
      = Function.update (doneCount total th) i
          (total i - t.rem + phaseDone t.pc) := by
  funext j
  by_cases h : j = i
  · subst h
    simp [doneCount, Function.update_same]
  · simp [doneCount, Function.update_noteq h]

theorem sum_doneCount_update {n : Nat} (total : Fin n → Nat)
    (th : Fin n → ThreadState) (i : Fin n) (t : ThreadState) :
    (∑ j, doneCount total (Function.update th i t) j)
        + doneCount total th i
      = (∑ j, doneCount total th j)
        + (total i - t.rem + phaseDone t.pc) := by
  rw [doneCount_update]
  exact sum_update_add (doneCount total th) i _

theorem init_inv {n : Nat} (init : Nat) (total : Fin n → Nat) :
    Inv init total (initState init total) := by
  refine ⟨?_, ?_, ?_, ?_, ?_⟩
  · simp [initState, doneCount, phaseDone]
  · intro i
    simp [initState]
  · intro i h
    simp [initState] at h
  · intro i lval h
    simp [initState] at h
  · intro i h
    simp [initState] at h

theorem step_inv {n : Nat} {init : Nat} {total : Fin n → Nat}
    {s s' : SysState n} (hstep : Step s s') (hinv : Inv init total s) :
    Inv init total s' := by
  cases hstep with
  | acquire i hfree hpc hrem =>
    refine ⟨?_, ?_, ?_, ?_, ?_⟩
    · have hsum := sum_doneCount_update total s.threads i
        ⟨(s.threads i).rem, Phase.acquired⟩
      have hval := hinv.val_eq
      have hold : doneCount total s.threads i
          = total i - (s.threads i).rem := by
        simp [doneCount, hpc, phaseDone]
      simp only [phaseDone] at hsum
      dsimp only
      omega
    · intro j
      by_cases h : j = i
      · subst h
        simpa [Function.update_same] using hinv.rem_le j
      · simpa [Function.update_noteq h] using hinv.rem_le j
    · intro j hne
      dsimp only at hne ⊢
      by_cases h : j = i
      · subst h
        rfl
      · rw [Function.update_noteq h] at hne
        exact absurd (hinv.nonidle_owner j hne) (by simp [hfree])
    · intro j lval hj
      dsimp only at hj ⊢
      by_cases h : j = i
      · subst h
        simp [Function.update_same] at hj
      · rw [Function.update_noteq h] at hj
        exact hinv.read_val j lval hj
    · intro j hne
      dsimp only at hne ⊢
      by_cases h : j = i
      · subst h
        simpa [Function.update_same] using hrem
      · rw [Function.update_noteq h] at hne ⊢
        exact hinv.nonidle_rem j hne
  | read i hown hpc =>
    refine ⟨?_, ?_, ?_, ?_, ?_⟩
    · have hsum := sum_doneCount_update total s.threads i
        ⟨(s.threads i).rem, Phase.readDone s.value⟩
      have hval := hinv.val_eq
      have hold : doneCount total s.threads i
          = total i - (s.threads i).rem := by
        simp [doneCount, hpc, phaseDone]
      simp only [phaseDone] at hsum
      dsimp only
      omega
    · intro j
      by_cases h : j = i
      · subst h
        simpa [Function.update_same] using hinv.rem_le j
      · simpa [Function.update_noteq h] using hinv.rem_le j
    · intro j hne
      dsimp only at hne ⊢
      by_cases h : j = i
      · subst h
        exact hown
      · rw [Function.update_noteq h] at hne
        exact hinv.nonidle_owner j hne
    · intro j lval hj
      dsimp only at hj ⊢
      by_cases h : j = i
      · subst h
        rw [Function.update_same] at hj
        cases hj
        rfl
      · rw [Function.update_noteq h] at hj
        exact hinv.read_val j lval hj
    · intro j hne
      dsimp only at hne ⊢
      by_cases h : j = i
      · subst h
        rw [Function.update_same]
        exact hinv.nonidle_rem _ (by simp [hpc])
      · rw [Function.update_noteq h] at hne ⊢
        exact hinv.nonidle_rem j hne
  | write i lval hown hpc =>
    refine ⟨?_, ?_, ?_, ?_, ?_⟩
    · have hsum := sum_doneCount_update total s.threads i
        ⟨(s.threads i).rem, Phase.wroteBack⟩
      have hval := hinv.val_eq
      have hlv := hinv.read_val i lval hpc
      have hold : doneCount total s.threads i
          = total i - (s.threads i).rem := by
        simp [doneCount, hpc, phaseDone]
      simp only [phaseDone] at hsum
      dsimp only
      omega
    · intro j
      by_cases h : j = i
      · subst h
        simpa [Function.update_same] using hinv.rem_le j
      · simpa [Function.update_noteq h] using hinv.rem_le j
    · intro j hne
      dsimp only at hne ⊢
      by_cases h : j = i
      · subst h
        exact hown
      · rw [Function.update_noteq h] at hne
        exact hinv.nonidle_owner j hne
    · intro j lval' hj
      dsimp only at hj ⊢
      by_cases h : j = i
      · subst h
        simp [Function.update_same] at hj
      · rw [Function.update_noteq h] at hj
        have hj' : (s.threads j).pc ≠ Phase.idle := by simp [hj]
        have hjo := hinv.nonidle_owner j hj'
        rw [hown] at hjo
        exact absurd (Option.some.inj hjo).symm h
    · intro j hne
      dsimp only at hne ⊢
      by_cases h : j = i
      · subst h
        rw [Function.update_same]
        exact hinv.nonidle_rem _ (by simp [hpc])
      · rw [Function.update_noteq h] at hne ⊢
        exact hinv.nonidle_rem j hne
  | release i hown hpc =>
    refine ⟨?_, ?_, ?_, ?_, ?_⟩
    · have hsum := sum_doneCount_update total s.threads i
        ⟨(s.threads i).rem - 1, Phase.idle⟩
      have hval := hinv.val_eq
      have hle := hinv.rem_le i
      have hpos := hinv.nonidle_rem i (by simp [hpc])
      have hold : doneCount total s.threads i
          = total i - (s.threads i).rem + 1 := by
        simp [doneCount, hpc, phaseDone]
      simp only [phaseDone] at hsum
      dsimp only
      omega
    · intro j
      dsimp only
      by_cases h : j = i
      · subst h
        have := hinv.rem_le j
        simp only [Function.update_same]
        omega
      · simpa [Function.update_noteq h] using hinv.rem_le j
    · intro j hne
      dsimp only at hne ⊢
      by_cases h : j = i
      · subst h
        rw [Function.update_same] at hne
        simp at hne
      · rw [Function.update_noteq h] at hne
        have hjo := hinv.nonidle_owner j hne
        rw [hown] at hjo
        exact absurd (Option.some.inj hjo).symm h
    · intro j lval hj
      dsimp only at hj ⊢
      by_cases h : j = i
      · subst h
        simp [Function.update_same] at hj
      · rw [Function.update_noteq h] at hj
        exact hinv.read_val j lval hj
    · intro j hne
      dsimp only at hne ⊢
      by_cases h : j = i
      · subst h
        rw [Function.update_same] at hne
        simp at hne
      · rw [Function.update_noteq h] at hne ⊢
        exact hinv.nonidle_rem j hne

theorem reachable_inv {n : Nat} {init : Nat} {total : Fin n → Nat}
    {s : SysState n} (h : Reachable init total s) : Inv init total s := by
  induction h with
  | refl => exact init_inv init total
  | tail _ hstep ih => exact step_inv hstep ih

theorem finished_value {n : Nat} {init : Nat} {total : Fin n → Nat}
    {s : SysState n} (hr : Reachable init total s) (hf : Finished s) :
    s.value = init + ∑ i, total i := by
  have hinv := reachable_inv hr
  have hdone : ∀ j, doneCount total s.threads j = total j := by
    intro j
    have hj := hf j
    simp [doneCount, hj.1, hj.2, phaseDone]
  rw [hinv.val_eq]
  congr 1
  exact Finset.sum_congr rfl fun j _ => hdone j

theorem reflTransGen_of_eq {α : Type} {r : α → α → Prop} {a b : α}
    (h : a = b) : Relation.ReflTransGen r a b :=
  h ▸ Relation.ReflTransGen.refl

theorem accepted_iff (F : CallableShape) (T : TypeTag) :
    (unary_reference_function F T || unary_const_reference_function F T)
        = true
      ↔ ((∃ k, F = CallableShape.freeFunction k [CppType.ref T])
        ∨ (∃ k, F = CallableShape.freeFunction k [CppType.constRef T])
        ∨ F = CallableShape.closureConstCallOp [CppType.ref T]
        ∨ F = CallableShape.closureConstCallOp [CppType.constRef T]) := by
  cases F with
  | freeFunction k ps =>
    rcases ps with _ | ⟨p, _ | ⟨q, rest⟩⟩
    · simp [unary_reference_function, unary_const_reference_function,
        function_traits_args, call_operator_traits_args]
    · cases p <;>
        simp [unary_reference_function, unary_const_reference_function,
          function_traits_args, call_operator_traits_args, beq_iff_eq]
    · cases p <;>
        simp [unary_reference_function, unary_const_reference_function,
          function_traits_args, call_operator_traits_args]
  | closureConstCallOp ps =>
    rcases ps with _ | ⟨p, _ | ⟨q, rest⟩⟩
    · simp [unary_reference_function, unary_const_reference_function,
        function_traits_args, call_operator_traits_args]
    · cases p <;>
        simp [unary_reference_function, unary_const_reference_function,
          function_traits_args, call_operator_traits_args, beq_iff_eq]
    · cases p <;>
        simp [unary_reference_function, unary_const_reference_function,
          function_traits_args, call_operator_traits_args]
  | closureMutableCallOp ps =>
    simp [unary_reference_function, unary_const_reference_function,
      function_traits_args, call_operator_traits_args]
  | genericClosure =>
    simp [unary_reference_function, unary_const_reference_function,
      function_traits_args, call_operator_traits_args]

theorem with_lock_mode_eq_none_iff (F : CallableShape) (T : TypeTag) :
    with_lock_mode F T = none
      ↔ (unary_reference_function F T
          || unary_const_reference_function F T) = false := by
  unfold with_lock_mode
  cases h1 : unary_reference_function F T <;>
    cases h2 : unary_const_reference_function F T <;> simp [h1, h2]

theorem with_lock_not_blocked {α β ε : Type} (m : MutexKind) (T : TypeTag)
    (F : CallableShape) (f : α → α × Except ε β) (g : α → Except ε β)
    (w : basic_lock_wrapper α) (hw : w.m_mutex = false) :
    with_lock m T F f g w ≠ WithLockOutcome.blocked := by
  unfold with_lock
  rcases with_lock_mode F T with _ | md
  · simp
  · cases md <;> simp [hw]

theorem with_lock_releases {α β ε : Type} {m : MutexKind} {T : TypeTag}
    {F : CallableShape} {f : α → α × Except ε β} {g : α → Except ε β}
    {w : basic_lock_wrapper α} {L : LockType} {fin : basic_lock_wrapper α}
    {r : Except ε β}
    (h : with_lock m T F f g w = WithLockOutcome.done L fin r) :
    fin.m_mutex = false := by
  unfold with_lock at h
  rcases hmode : with_lock_mode F T with _ | md
  · rw [hmode] at h
    cases h
  · rw [hmode] at h
    cases md <;> by_cases hb : w.m_mutex = true
    · simp [hb] at h
    · simp only [hb, if_false, Bool.false_eq_true] at h
      cases h
      rfl
    · simp [hb] at h
    · simp only [hb, if_false, Bool.false_eq_true] at h
      cases h
      rfl

/-- C1: a callable whose single parameter is `T &` — whether a free
function in any of the three `function_traits` forms (plain type, pointer,
reference) or a closure with a matching `const` call operator — is
classified Exclusive, and `with_lock` then acquires the `mutex_traits`
`unique_lock` and invokes the operation on the owned value
(`m_contained`); a callable whose single parameter is `const T &` is
classified Shared and `with_lock` acquires the `shared_lock`; the
free-function and closure forms are classified identically and their
calls have identical externally observable outcomes. -/
theorem with_lock_classification_and_dispatch {α β ε : Type}
    (m : MutexKind) (T : TypeTag) (k : FreeKind)
    (mutSem : α → α × Except ε β) (constSem : α → Except ε β)
    (w : basic_lock_wrapper α) (hw : w.m_mutex = false) :
    (with_lock_mode (CallableShape.freeFunction k [CppType.ref T]) T
        = some LockMode.Exclusive
      ∧ with_lock_mode (CallableShape.closureConstCallOp [CppType.ref T]) T
        = some LockMode.Exclusive
      ∧ with_lock_mode (CallableShape.freeFunction k [CppType.constRef T]) T
        = some LockMode.Shared
      ∧ with_lock_mode
          (CallableShape.closureConstCallOp [CppType.constRef T]) T
        = some LockMode.Shared)
    ∧ (with_lock m T (CallableShape.freeFunction k [CppType.ref T])
          mutSem constSem w
        = WithLockOutcome.done (mutex_traits m).unique_lock
            ⟨false, (mutSem w.m_contained).1⟩ (mutSem w.m_contained).2
      ∧ with_lock m T (CallableShape.closureConstCallOp [CppType.ref T])
          mutSem constSem w
        = with_lock m T (CallableShape.freeFunction k [CppType.ref T])
            mutSem constSem w)
    ∧ (with_lock m T (CallableShape.freeFunction k [CppType.constRef T])
          mutSem constSem w
        = WithLockOutcome.done (mutex_traits m).shared_lock
            ⟨false, w.m_contained⟩ (constSem w.m_contained)
      ∧ with_lock m T
          (CallableShape.closureConstCallOp [CppType.constRef T])
          mutSem constSem w
        = with_lock m T (CallableShape.freeFunction k [CppType.constRef T])
            mutSem constSem w) := by
  refine ⟨⟨?_, ?_, ?_, ?_⟩, ⟨?_, ?_⟩, ⟨?_, ?_⟩⟩ <;>
    simp [with_lock, with_lock_mode, unary_reference_function,
      unary_const_reference_function, function_traits_args,
      call_operator_traits_args, hw]

theorem with_lock_classification_and_dispatch_witness :
    ((⟨false, (42 : Int)⟩ : basic_lock_wrapper Int).m_mutex = false)
    ∧ with_lock MutexKind.std_mutex TypeTag.int
        (CallableShape.freeFunction FreeKind.plain [CppType.ref TypeTag.int])
        (fun v : Int => (v + 1, (Except.ok v : Except Nat Int)))
        (fun v : Int => Except.ok (v + 1)) ⟨false, 42⟩
      = WithLockOutcome.done
          (mutex_traits MutexKind.std_mutex).unique_lock ⟨false, 43⟩
          (Except.ok 42)
    ∧ with_lock MutexKind.std_mutex TypeTag.int
        (CallableShape.closureConstCallOp [CppType.ref TypeTag.int])
        (fun v : Int => (v + 1, (Except.ok v : Except Nat Int)))
        (fun v : Int => Except.ok (v + 1)) ⟨false, 42⟩
      = with_lock MutexKind.std_mutex TypeTag.int
          (CallableShape.freeFunction FreeKind.plain
            [CppType.ref TypeTag.int])
          (fun v : Int => (v + 1, (Except.ok v : Except Nat Int)))
          (fun v : Int => Except.ok (v + 1)) ⟨false, 42⟩ := by
  have h := with_lock_classification_and_dispatch MutexKind.std_mutex
    TypeTag.int FreeKind.plain
    (fun v : Int => (v + 1, (Except.ok v : Except Nat Int)))
    (fun v : Int => Except.ok (v + 1)) ⟨false, 42⟩ rfl
  exact ⟨rfl, h.2.1.1, h.2.1.2⟩

/-- C2: when the operation raises, the RAII guard releases the mutex
during unwinding, so the completed call leaves the wrapper's mutex free
(no lock leak) and the error reaches the caller unchanged (same `e`, not
swallowed or wrapped); consequently any subsequent `with_lock` call on
the resulting wrapper does not block. -/
theorem with_lock_error_release_and_propagate {α β ε : Type}
    (m : MutexKind) (T : TypeTag) (mutSem : α → α × Except ε β)
    (constSem : α → Except ε β) (w : basic_lock_wrapper α)
    (hw : w.m_mutex = false) :
    (∀ F, with_lock_mode F T = some LockMode.Exclusive →
      ∀ a' e, mutSem w.m_contained = (a', Except.error e) →
        with_lock m T F mutSem constSem w
          = WithLockOutcome.done (mutex_traits m).unique_lock
              ⟨false, a'⟩ (Except.error e))
    ∧ (∀ F, with_lock_mode F T = some LockMode.Shared →
      ∀ e, constSem w.m_contained = Except.error e →
        with_lock m T F mutSem constSem w
          = WithLockOutcome.done (mutex_traits m).shared_lock
              ⟨false, w.m_contained⟩ (Except.error e))
    ∧ (∀ F L fin r,
        with_lock m T F mutSem constSem w = WithLockOutcome.done L fin r →
        fin.m_mutex = false
        ∧ (∀ (F' : CallableShape) (g1 : α → α × Except ε β)
            (g2 : α → Except ε β),
            with_lock m T F' g1 g2 fin ≠ WithLockOutcome.blocked)
        ∧ (∀ (F' : CallableShape) (g1 : α → α × Except ε β)
            (g2 : α → Except ε β) md, with_lock_mode F' T = some md →
            ∃ L' fin' r',
              with_lock m T F' g1 g2 fin
                = WithLockOutcome.done L' fin' r')) := by
  refine ⟨?_, ?_, ?_⟩
  · intro F hF a' e hsem
    simp [with_lock, hF, hw, hsem]
  · intro F hF e hsem
    simp [with_lock, hF, hw, hsem]
  · intro F L fin r h
    have hfin : fin.m_mutex = false := with_lock_releases h
    refine ⟨hfin, fun F' g1 g2 => with_lock_not_blocked m T F' g1 g2 fin hfin,
      ?_⟩
    intro F' g1 g2 md hmd
    cases md
    · exact ⟨(mutex_traits m).unique_lock,
        ⟨false, (g1 fin.m_contained).1⟩, (g1 fin.m_contained).2,
        by simp [with_lock, hmd, hfin]⟩
    · exact ⟨(mutex_traits m).shared_lock,
        ⟨false, fin.m_contained⟩, g2 fin.m_contained,
        by simp [with_lock, hmd, hfin]⟩

theorem with_lock_error_release_and_propagate_witness :
    ((⟨false, (42 : Int)⟩ : basic_lock_wrapper Int).m_mutex = false)
    ∧ with_lock_mode
        (CallableShape.closureConstCallOp [CppType.ref TypeTag.int])
        TypeTag.int = some LockMode.Exclusive
    ∧ (fun v : Int => (v + 1, (Except.error 7 : Except Nat Unit))) 42
      = (43, Except.error 7)
    ∧ with_lock MutexKind.std_mutex TypeTag.int
        (CallableShape.closureConstCallOp [CppType.ref TypeTag.int])
        (fun v : Int => (v + 1, (Except.error 7 : Except Nat Unit)))
        (fun _ : Int => Except.error 7) ⟨false, 42⟩
      = WithLockOutcome.done
          (mutex_traits MutexKind.std_mutex).unique_lock ⟨false, 43⟩
          (Except.error 7)
    ∧ with_lock MutexKind.std_mutex TypeTag.int
        (CallableShape.closureConstCallOp [CppType.ref TypeTag.int])
        (fun v : Int => (v + 1, (Except.error 7 : Except Nat Unit)))
        (fun _ : Int => Except.error 7) ⟨false, 43⟩
      ≠ WithLockOutcome.blocked := by
  have h := with_lock_error_release_and_propagate MutexKind.std_mutex
    TypeTag.int
    (fun v : Int => (v + 1, (Except.error 7 : Except Nat Unit)))
    (fun _ : Int => Except.error 7) ⟨false, 42⟩ rfl
  have h1 := h.1 (CallableShape.closureConstCallOp [CppType.ref TypeTag.int])
    rfl 43 7 rfl
  have h2 := h.2.2 (CallableShape.closureConstCallOp [CppType.ref TypeTag.int])
    (mutex_traits MutexKind.std_mutex).unique_lock ⟨false, 43⟩
    (Except.error 7) h1
  exact ⟨rfl, rfl, rfl, h1,
    h2.2.1 (CallableShape.closureConstCallOp [CppType.ref TypeTag.int])
      (fun v : Int => (v + 1, (Except.error 7 : Except Nat Unit)))
      (fun _ : Int => Except.error 7)⟩

/-- C3: a Shared-mode (read-only) call leaves the stored value unchanged —
the wrapper adds no side effect of its own, and the `const`-reference
operation cannot mutate (its model type `α → Except ε β` does not return
a new value); concretely, a read-only `value + 1` operation on a wrapper
holding 42 returns 43 and the stored value is still 42. -/
theorem with_lock_shared_frame {α β ε : Type} (m : MutexKind) (T : TypeTag)
    (F : CallableShape) (mutSem : α → α × Except ε β)
    (constSem : α → Except ε β) (w : basic_lock_wrapper α)
    (hw : w.m_mutex = false)
    (hmode : with_lock_mode F T = some LockMode.Shared) :
    with_lock m T F mutSem constSem w
      = WithLockOutcome.done (mutex_traits m).shared_lock
          ⟨false, w.m_contained⟩ (constSem w.m_contained)
    ∧ (∀ L fin r, with_lock m T F mutSem constSem w
          = WithLockOutcome.done L fin r → fin.m_contained = w.m_contained)
    ∧ with_lock MutexKind.std_mutex TypeTag.int
        (CallableShape.closureConstCallOp [CppType.constRef TypeTag.int])
        (fun v : Int => (v, (Except.ok v : Except Nat Int)))
        (fun v : Int => Except.ok (v + 1))
        (basic_lock_wrapper.construct 42)
      = WithLockOutcome.done
          (mutex_traits MutexKind.std_mutex).shared_lock
          ⟨false, 42⟩ (Except.ok 43) := by
  have hmain : with_lock m T F mutSem constSem w
      = WithLockOutcome.done (mutex_traits m).shared_lock
          ⟨false, w.m_contained⟩ (constSem w.m_contained) := by
    simp [with_lock, hmode, hw]
  refine ⟨hmain, ?_, rfl⟩
  intro L fin r h
  rw [hmain] at h
  cases h
  rfl

theorem with_lock_shared_frame_witness :
    ((⟨false, (42 : Int)⟩ : basic_lock_wrapper Int).m_mutex = false)
    ∧ with_lock_mode
        (CallableShape.closureConstCallOp [CppType.constRef TypeTag.int])
        TypeTag.int = some LockMode.Shared
    ∧ with_lock MutexKind.std_mutex TypeTag.int
        (CallableShape.closureConstCallOp [CppType.constRef TypeTag.int])
        (fun v : Int => (v, (Except.ok v : Except Nat Int)))
        (fun v : Int => Except.ok (v + 1)) ⟨false, 42⟩
      = WithLockOutcome.done
          (mutex_traits MutexKind.std_mutex).shared_lock
          ⟨false, 42⟩ (Except.ok 43) := by
  have h := with_lock_shared_frame MutexKind.std_mutex TypeTag.int
    (CallableShape.closureConstCallOp [CppType.constRef TypeTag.int])
    (fun v : Int => (v, (Except.ok v : Except Nat Int)))
    (fun v : Int => Except.ok (v + 1)) ⟨false, 42⟩ rfl rfl
  exact ⟨rfl, rfl, h.1⟩

/-- C4: an Exclusive-mode (mutable) call applies the operation to the
owned value in place — the final wrapper holds the operation's updated
value — and propagates the operation's returned value to the caller; a
`void` result is supported (`β := Unit`); concretely, an increment on a
wrapper holding 42 leaves 43 stored, observable afterwards through the
unsynchronized `operator*`. -/
theorem with_lock_exclusive_update {α β ε : Type} (m : MutexKind)
    (T : TypeTag) (F : CallableShape) (mutSem : α → α × Except ε β)
    (constSem : α → Except ε β) (w : basic_lock_wrapper α)
    (hw : w.m_mutex = false)
    (hmode : with_lock_mode F T = some LockMode.Exclusive) :
    with_lock m T F mutSem constSem w
      = WithLockOutcome.done (mutex_traits m).unique_lock
          ⟨false, (mutSem w.m_contained).1⟩ (mutSem w.m_contained).2
    ∧ with_lock MutexKind.std_mutex TypeTag.int
        (CallableShape.closureConstCallOp [CppType.ref TypeTag.int])
        (fun v : Int => (v + 1, (Except.ok () : Except Nat Unit)))
        (fun _ : Int => Except.ok ())
        (basic_lock_wrapper.construct 42)
      = WithLockOutcome.done
          (mutex_traits MutexKind.std_mutex).unique_lock
          ⟨false, 43⟩ (Except.ok ())
    ∧ basic_lock_wrapper.deref (⟨false, 43⟩ : basic_lock_wrapper Int)
      = 43 := by
  refine ⟨?_, rfl, rfl⟩
  simp [with_lock, hmode, hw]

theorem with_lock_exclusive_update_witness :
    ((⟨false, (42 : Int)⟩ : basic_lock_wrapper Int).m_mutex = false)
    ∧ with_lock_mode
        (CallableShape.closureConstCallOp [CppType.ref TypeTag.int])
        TypeTag.int = some LockMode.Exclusive
    ∧ with_lock MutexKind.std_mutex TypeTag.int
        (CallableShape.closureConstCallOp [CppType.ref TypeTag.int])
        (fun v : Int => (v + 1, (Except.ok () : Except Nat Unit)))
        (fun _ : Int => Except.ok ()) ⟨false, 42⟩
      = WithLockOutcome.done
          (mutex_traits MutexKind.std_mutex).unique_lock
          ⟨false, 43⟩ (Except.ok ()) := by
  have h := with_lock_exclusive_update MutexKind.std_mutex TypeTag.int
    (CallableShape.closureConstCallOp [CppType.ref TypeTag.int])
    (fun v : Int => (v + 1, (Except.ok () : Except Nat Unit)))
    (fun _ : Int => Except.ok ()) ⟨false, 42⟩ rfl rfl
  exact ⟨rfl, rfl, h.1⟩

/-- C5 counterexample: constructing `zdm::lock_wrapper<int>` with no
arguments by plain default-initialization (`zdm::lock_wrapper<int> w;`)
does not value-initialize the contained `int`: the defaulted constructor
leaves the uninitialized member at its indeterminate contents (here 7),
which is not zero. -/
theorem noarg_construction_not_value_initialized :
    contained_after_noarg_construction CppInit.defaultInit 7 = 7
    ∧ contained_after_noarg_construction CppInit.defaultInit 7 ≠ 0 :=
  ⟨rfl, by decide⟩

/-- C5 amended: constructing with no arguments through value-initialization
syntax (`zdm::lock_wrapper<int> w{};`) yields a value-initialized (zeroed)
contained value, because the defaulted constructor is not user-provided;
plain default-initialization instead leaves a built-in contained type
indeterminate. -/
theorem noarg_value_initialization_yields_zero :
    ∀ indet : Int,
      contained_after_noarg_construction CppInit.valueInit indet = 0 :=
  fun _ => rfl

/-- C6: a callable of invalid shape — zero declared parameters, two or
more, or a single parameter that is neither `T &` nor `const T &`
(including `T` by value and `T &&`) — satisfies neither concept, so
overload resolution for `with_lock` fails: the call is rejected at
compile time (`compileError`), independent of any wrapper state, before
any lock acquisition or value access. -/
theorem with_lock_rejects_invalid_shapes (T : TypeTag) (F : CallableShape)
    (ps : List CppType) (hps : declaredParams F = some ps)
    (hbad : ps = [] ∨ 2 ≤ ps.length
      ∨ ∃ p, ps = [p] ∧ p ≠ CppType.ref T ∧ p ≠ CppType.constRef T) :
    with_lock_mode F T = none
    ∧ ∀ {α β ε : Type} (m : MutexKind) (f : α → α × Except ε β)
        (g : α → Except ε β) (w : basic_lock_wrapper α),
        with_lock m T F f g w = WithLockOutcome.compileError := by
  have hacc : (unary_reference_function F T
      || unary_const_reference_function F T) = false := by
    by_contra hc
    have htrue : (unary_reference_function F T
        || unary_const_reference_function F T) = true := by
      cases h : (unary_reference_function F T
          || unary_const_reference_function F T)
      · exact absurd h hc
      · rfl
    rcases (accepted_iff F T).mp htrue with ⟨k, rfl⟩ | ⟨k, rfl⟩ | rfl | rfl <;>
      · simp only [declaredParams, Option.some.injEq] at hps
        subst hps
        rcases hbad with h | h | ⟨p, hp, h1, h2⟩ <;> simp_all
  have hmode : with_lock_mode F T = none :=
    (with_lock_mode_eq_none_iff F T).mpr hacc
  exact ⟨hmode, fun m f g w => by simp [with_lock, hmode]⟩

theorem with_lock_rejects_invalid_shapes_witness :
    declaredParams
        (CallableShape.freeFunction FreeKind.plain [CppType.value TypeTag.int])
      = some [CppType.value TypeTag.int]
    ∧ with_lock_mode
        (CallableShape.freeFunction FreeKind.plain [CppType.value TypeTag.int])
        TypeTag.int = none
    ∧ with_lock MutexKind.std_mutex TypeTag.int
        (CallableShape.freeFunction FreeKind.plain [CppType.value TypeTag.int])
        (fun v : Int => (v + 1, (Except.ok v : Except Nat Int)))
        (fun v : Int => Except.ok (v + 1)) ⟨false, 42⟩
      = WithLockOutcome.compileError := by
  have h := with_lock_rejects_invalid_shapes TypeTag.int
    (CallableShape.freeFunction FreeKind.plain [CppType.value TypeTag.int])
    [CppType.value TypeTag.int] rfl
    (Or.inr (Or.inr ⟨CppType.value TypeTag.int, rfl, by decide, by decide⟩))
  exact ⟨rfl, h.1,
    h.2 MutexKind.std_mutex
      (fun v : Int => (v + 1, (Except.ok v : Except Nat Int)))
      (fun v : Int => Except.ok (v + 1)) ⟨false, 42⟩⟩

/-- C7: constructing the wrapper from a value `V` and immediately reading
through the unsynchronized `operator*` returns exactly `V`, with no
transformation; no locking is performed — the construction leaves the
mutex free and the read does not consult the mutex at all (it returns
`V` whatever the mutex state). -/
theorem construct_deref_roundtrip {α : Type} (v : α) :
    basic_lock_wrapper.deref (basic_lock_wrapper.construct v) = v
    ∧ (basic_lock_wrapper.construct v).m_mutex = false
    ∧ ∀ b : Bool, basic_lock_wrapper.deref ⟨b, v⟩ = v :=
  ⟨rfl, rfl, fun _ => rfl⟩

/-- C8: the `mutex_traits` table is exactly as specified — `std::mutex`
maps both modes to the same scoped-exclusive lock, `std::shared_mutex`
maps Exclusive to an exclusively acquired (write) lock and Shared to a
shared (read) lock, `std::recursive_mutex` maps both modes to the same
scoped-exclusive lock — and the header exposes exactly the three pre-built
aliases, binding the container to these three distinct mutex kinds. -/
theorem mutex_traits_policy_table :
    ((mutex_traits MutexKind.std_mutex).unique_lock
        = LockType.scoped_lock MutexKind.std_mutex
      ∧ (mutex_traits MutexKind.std_mutex).shared_lock
        = (mutex_traits MutexKind.std_mutex).unique_lock
      ∧ (mutex_traits MutexKind.std_mutex).unique_lock.acquisition
        = LockMode.Exclusive)
    ∧ ((mutex_traits MutexKind.std_shared_mutex).unique_lock
        = LockType.unique_lock MutexKind.std_shared_mutex
      ∧ (mutex_traits MutexKind.std_shared_mutex).shared_lock
        = LockType.shared_lock MutexKind.std_shared_mutex
      ∧ (mutex_traits MutexKind.std_shared_mutex).unique_lock.acquisition
        = LockMode.Exclusive
      ∧ (mutex_traits MutexKind.std_shared_mutex).shared_lock.acquisition
        = LockMode.Shared)
    ∧ ((mutex_traits MutexKind.std_recursive_mutex).unique_lock
        = LockType.scoped_lock MutexKind.std_recursive_mutex
      ∧ (mutex_traits MutexKind.std_recursive_mutex).shared_lock
        = (mutex_traits MutexKind.std_recursive_mutex).unique_lock
      ∧ (mutex_traits MutexKind.std_recursive_mutex).unique_lock.acquisition
        = LockMode.Exclusive)
    ∧ (prebuilt_aliases
        = [MutexKind.std_mutex, MutexKind.std_shared_mutex,
            MutexKind.std_recursive_mutex]
      ∧ prebuilt_aliases.length = 3
      ∧ prebuilt_aliases.Nodup) := by
  refine ⟨⟨rfl, rfl, rfl⟩, ⟨rfl, rfl, rfl, rfl⟩, ⟨rfl, rfl, rfl⟩,
    rfl, rfl, ?_⟩
  decide

/-- C9: interleaving any number of threads, each performing its quota of
Exclusive-mode increments on one shared wrapper (each increment a
non-atomic load/store protected only by the mutex), every completed run
ends with the counter exactly the sum of the quotas above its initial
value — mutual exclusion prevents lost updates; in particular the test's
scenario (start at 0, 4 threads, 25 increments each) always ends at
exactly 100. -/
theorem with_lock_concurrent_increment_exact :
    (∀ (n : Nat) (init : Nat) (total : Fin n → Nat) (s : SysState n),
      Reachable init total s → Finished s →
        s.value = init + ∑ i, total i)
    ∧ (∀ s : SysState 4,
      Reachable 0 (fun _ => 25) s → Finished s → s.value = 100) := by
  refine ⟨fun n init total s hr hf => finished_value hr hf, ?_⟩
  intro s hr hf
  have h := finished_value hr hf
  simpa using h

theorem with_lock_concurrent_increment_exact_witness :
    Reachable 0 (fun _ : Fin 1 => 1) demoFinal
    ∧ Finished demoFinal
    ∧ demoFinal.value = 0 + ∑ i : Fin 1, (fun _ : Fin 1 => 1) i := by
  have hreach : Reachable 0 (fun _ : Fin 1 => 1) demoFinal := by
    refine Relation.ReflTransGen.head
      (Step.acquire (initState 0 (fun _ : Fin 1 => 1)) 0 rfl rfl
        (by decide)) ?_
    refine Relation.ReflTransGen.head (Step.read _ 0 rfl rfl) ?_
    refine Relation.ReflTransGen.head (Step.write _ 0 0 rfl rfl) ?_
    refine Relation.ReflTransGen.head (Step.release _ 0 rfl rfl) ?_
    refine reflTransGen_of_eq ?_
    unfold demoFinal
    congr 1
    funext j
    fin_cases j
    rfl
  have hfin : Finished demoFinal := fun _ => ⟨rfl, rfl⟩
  exact ⟨hreach, hfin,
    with_lock_concurrent_increment_exact.1 1 0 (fun _ => 1) demoFinal
      hreach hfin⟩

/-- C10: classification sees a closure only through a `const`,
non-template call operator: a `mutable` lambda (non-`const` `operator()`)
and a generic lambda (templated `operator()`) satisfy neither concept and
are rejected at compile time, even though both are invocable with an
lvalue reference to the contained value. -/
theorem closures_require_const_nontemplate_call_op (T : TypeTag) :
    invocable_with_lvalue
        (CallableShape.closureMutableCallOp [CppType.ref T]) T = true
    ∧ invocable_with_lvalue CallableShape.genericClosure T = true
    ∧ with_lock_mode
        (CallableShape.closureMutableCallOp [CppType.ref T]) T = none
    ∧ with_lock_mode CallableShape.genericClosure T = none
    ∧ ∀ {α β ε : Type} (m : MutexKind) (f : α → α × Except ε β)
        (g : α → Except ε β) (w : basic_lock_wrapper α),
        with_lock m T (CallableShape.closureMutableCallOp [CppType.ref T])
            f g w
          = WithLockOutcome.compileError
        ∧ with_lock m T CallableShape.genericClosure f g w
          = WithLockOutcome.compileError := by
  refine ⟨by simp [invocable_with_lvalue], rfl, rfl, rfl, ?_⟩
  intro α β ε m f g w
  exact ⟨rfl, rfl⟩

end zdm
